import Mathlib

/-!
Verification of the SRBCS user-service repository: domain validation,
service orchestration, repository error translation and handler behaviour,
shallowly embedded in Lean from the Go source.
-/

namespace SRBCS

/-- The sentinel error kinds declared in `internal/domain/errors.go`. -/
inductive ErrKind where
  | userNotFound
  | userAlreadyExists
  | invalidUserID
  | invalidUserEmail
  | invalidUserName
  | invalidUserRole
  | invalidUserEmailVerified
  | invalidUserActive
  | invalidOTP
  | invalidOTPExpiresAt
  | internalError
  | invalidInput
  | unauthorized
  | forbidden
  | validationFailed
  deriving DecidableEq, Repr

/-- A Go `error` value as the handler can observe it: a domain sentinel,
a storage-layer (driver) error such as `sql.ErrNoRows` or a connection
failure, or a `fmt.Errorf("...: %w", err)` wrapper around another error. -/
inductive GoError where
  | sentinel : ErrKind → GoError
  | storage : String → GoError
  | wrapped : String → GoError → GoError
  deriving DecidableEq, Repr

/-- `containsError` from `internal/handler/utils.go`: `errors.Is(err, target)`,
which walks the wrap chain comparing against the sentinel. -/
def containsError : GoError → ErrKind → Bool
  | .sentinel k, t => k = t
  | .storage _, _ => false
  | .wrapped _ e, t => containsError e t

/-- `getStatusCodeFromError` from the user handler: the `switch` that maps
domain errors to HTTP status codes. -/
def getStatusCodeFromError (e : GoError) : Nat :=
  if containsError e .userNotFound then 404
  else if containsError e .userAlreadyExists then 409
  else if containsError e .invalidUserID || containsError e .invalidUserEmail
       || containsError e .invalidUserName || containsError e .invalidInput
       || containsError e .validationFailed then 400
  else if containsError e .unauthorized then 401
  else if containsError e .forbidden then 403
  else 500

/-- The status the claim assigns to each sentinel kind: `UserNotFound` 404,
`UserAlreadyExists` 409, the five validation kinds 400, `Unauthorized` 401,
`Forbidden` 403, everything else 500. -/
def claimedStatus : ErrKind → Nat
  | .userNotFound => 404
  | .userAlreadyExists => 409
  | .invalidUserID => 400
  | .invalidUserEmail => 400
  | .invalidUserName => 400
  | .invalidInput => 400
  | .validationFailed => 400
  | .unauthorized => 401
  | .forbidden => 403
  | _ => 500

/-- Whitespace characters as Go's validator rejects them (space and the
ASCII control whitespace). -/
def goIsSpace (c : Char) : Bool :=
  c == ' ' || c == '\t' || c == '\n' || c == '\x0d' || c == '\x0b' || c == '\x0c'

/-- Modelled from the spec: `User.IsValidEmail` / `ValidateEmail` of
`internal/domain/user.go`, which is not among the provided sources (only its
tests are). Per the spec, an email is valid iff it has a non-empty
local-part, exactly one `@`, a domain containing a `.` with non-empty
segments on both sides of the `@`, and no whitespace. -/
def isValidEmail (s : String) : Bool :=
  s.data.count '@' == 1 && !s.data.any goIsSpace
    && !(s.data.takeWhile (fun c => c != '@')).isEmpty
    && !((s.data.dropWhile (fun c => c != '@')).drop 1).isEmpty
    && decide ('.' ∈ (s.data.dropWhile (fun c => c != '@')).drop 1)

/-- The `User` entity of `internal/domain`, with the fields the DTO and the
schema record. Timestamps are modelled as naturals (`time.Time` values on a
monotone clock). -/
structure User where
  ID : String
  Email : String
  Name : String
  Role : String
  IsEmailVerified : Bool
  IsActive : Bool
  OTP : Option String
  OTPExpiresAt : Option Nat
  CreatedAt : Nat
  UpdatedAt : Nat
  deriving DecidableEq, Repr

/-- Modelled from the spec: `NewUser` (the constructor `Construct`) of
`internal/domain/user.go`, which is not among the provided sources. It
validates the email and the name and stamps `CreatedAt = UpdatedAt = now`;
defaults: role `user`, not verified, active, no OTP, ID assigned later by
storage. `now` is the clock reading passed explicitly. -/
def NewUser (email name : String) (now : Nat) : Except GoError User :=
  if !isValidEmail email then .error (.sentinel .invalidUserEmail)
  else if name = "" then .error (.sentinel .invalidUserName)
  else .ok { ID := "", Email := email, Name := name, Role := "user",
             IsEmailVerified := false, IsActive := true, OTP := none,
             OTPExpiresAt := none, CreatedAt := now, UpdatedAt := now }

/-- Modelled from the spec: `User.UpdateEmail` of `internal/domain/user.go`,
which is not among the provided sources. It returns the error and the
resulting entity state (Go mutates in place): on invalid input the error
`ErrInvalidUserEmail` with the state untouched, on success the new email
with `UpdatedAt` refreshed to `now`. -/
def User.UpdateEmail (u : User) (newEmail : String) (now : Nat) :
    Option GoError × User :=
  if isValidEmail newEmail then
    (none, { u with Email := newEmail, UpdatedAt := now })
  else (some (.sentinel .invalidUserEmail), u)

/-- Modelled from the spec: `User.UpdateName` of `internal/domain/user.go`,
which is not among the provided sources. Empty name yields
`ErrInvalidUserName` with the state untouched; otherwise the name is set
and `UpdatedAt` refreshed to `now`. -/
def User.UpdateName (u : User) (newName : String) (now : Nat) :
    Option GoError × User :=
  if newName = "" then (some (.sentinel .invalidUserName), u)
  else (none, { u with Name := newName, UpdatedAt := now })

/-- The repository operations of the `UserRepository` capability interface,
recorded as a trace so that "does not call `Create`" is observable. -/
inductive RepoCall where
  | create
  | getByID
  | getByEmail
  | update
  | delete
  | list
  deriving DecidableEq, Repr

/-- An in-memory repository state: the stored user rows (IDs assigned by
storage, emails unique by index). This plays the role the mock repository
plays in `TestUserService_*`. -/
structure RepoState where
  users : List User
  deriving Repr

/-- Repository `GetByEmail`: the first row with the given email, or the
`UserNotFound` sentinel (the boundary translation of "no row"). -/
def RepoState.getByEmail (r : RepoState) (email : String) : Except GoError User :=
  match r.users.find? (fun u => u.Email == email) with
  | some u => .ok u
  | none => .error (.sentinel .userNotFound)

/-- Repository `GetByID`: the first row with the given ID, or the
`UserNotFound` sentinel. -/
def RepoState.getByID (r : RepoState) (id : String) : Except GoError User :=
  match r.users.find? (fun u => u.ID == id) with
  | some u => .ok u
  | none => .error (.sentinel .userNotFound)

/-- Repository `Create`: inserts the row, with the storage-assigned `newID`
set on the user (`RETURNING id`). -/
def RepoState.create (r : RepoState) (u : User) (newID : String) :
    User × RepoState :=
  let u' := { u with ID := newID }
  (u', { users := r.users ++ [u'] })

/-- Repository `Update`: replaces the row with the user's ID; when no row
matches (zero rows affected) it returns the `UserNotFound` sentinel. -/
def RepoState.update (r : RepoState) (u : User) : Option GoError × RepoState :=
  if r.users.any (fun v => v.ID == u.ID) then
    (none, { users := r.users.map (fun v => if v.ID == u.ID then u else v) })
  else (some (.sentinel .userNotFound), r)

/-- Modelled from the spec: the service `CreateUser` of
`internal/service/user_service.go`, which is not among the provided sources
(only its tests and the handler that calls it are). It looks up the email
via the repository; if a user is found it fails with `UserAlreadyExists`;
otherwise it constructs the entity (propagating validation errors) and
persists it, returning the row with the repository-assigned ID. The result
carries the repository state after the call and the trace of repository
operations invoked. -/
def CreateUser (r : RepoState) (email name : String) (now : Nat)
    (newID : String) : Except GoError User × RepoState × List RepoCall :=
  match r.getByEmail email with
  | .ok _ => (.error (.sentinel .userAlreadyExists), r, [.getByEmail])
  | .error _ =>
    match NewUser email name now with
    | .error e => (.error e, r, [.getByEmail])
    | .ok u =>
      let (u', r') := r.create u newID
      (.ok u', r', [.getByEmail, .create])

/-- Modelled from the spec: the service `GetUserByID` of
`internal/service/user_service.go`, which is not among the provided
sources. An empty id fails with `InvalidUserID` before any repository
call; otherwise it delegates to the repository. -/
def GetUserByID (r : RepoState) (id : String) :
    Except GoError User × List RepoCall :=
  if id = "" then (.error (.sentinel .invalidUserID), [])
  else (r.getByID id, [.getByID])

/-- Modelled from the spec: the service `UpdateUser` of
`internal/service/user_service.go`, which is not among the provided
sources. It loads the entity (propagating `UserNotFound`), applies
`UpdateEmail` only when the email argument is non-empty and `UpdateName`
only when the name argument is non-empty (empty string means "no change
requested"), then persists the mutated entity. -/
def UpdateUser (r : RepoState) (id email name : String) (now : Nat) :
    Except GoError User × RepoState :=
  match r.getByID id with
  | .error e => (.error e, r)
  | .ok u =>
    match (if email = "" then (none, u) else u.UpdateEmail email now) with
    | (some e, _) => (.error e, r)
    | (none, u1) =>
      match (if name = "" then (none, u1) else u1.UpdateName name now) with
      | (some e, _) => (.error e, r)
      | (none, u2) =>
        match r.update u2 with
        | (some e, _) => (.error e, r)
        | (none, r') => (.ok u2, r')

/-- A sample stored user used in concrete witness checks. -/
def sampleUser : User :=
  { ID := "user-1", Email := "old@example.com", Name := "Old Name",
    Role := "user", IsEmailVerified := false, IsActive := true, OTP := none,
    OTPExpiresAt := none, CreatedAt := 1, UpdatedAt := 2 }

/-- `UserDTO` from `internal/repository/dto/user_dto.go`: the storage-shaped
row read from and written to the `users` table. -/
structure UserDTO where
  ID : String
  Email : String
  Name : String
  IsEmailVerified : Bool
  IsActive : Bool
  OTP : Option String
  OTPExpiresAt : Option Nat
  Role : String
  CreatedAt : Nat
  UpdatedAt : Nat
  deriving DecidableEq, Repr

/-- Outcome of a single-row query as the `database/sql` driver reports it:
a row, `sql.ErrNoRows`, or some other driver error. -/
inductive QueryResult (α : Type) where
  | row : α → QueryResult α
  | noRows : QueryResult α
  | queryErr : String → QueryResult α
  deriving DecidableEq, Repr

/-- Outcome of an `ExecContext` statement: an execution error, an error from
`RowsAffected()`, or success with the number of rows affected. -/
inductive ExecResult where
  | execErr : String → ExecResult
  | rowsAffectedErr : String → ExecResult
  | ok : Nat → ExecResult
  deriving DecidableEq, Repr

/-- `PostgresUserRepository.GetByID` from
`internal/repository/user_postgres.go`, over the driver outcome of its
`SELECT`: `sql.ErrNoRows` becomes `domain.ErrUserNotFound`, any other
driver error is wrapped, and a found row is converted via the DTO's
`ToDomain` (kept abstract, as `domain.NewUserWithID` lives outside this
slice), wrapping any conversion failure. -/
def pgGetByID (toDomain : UserDTO → Except GoError User) :
    QueryResult UserDTO → Except GoError User
  | .row d =>
    match toDomain d with
    | .ok u => .ok u
    | .error e => .error (.wrapped "failed to convert user DTO to domain" e)
  | .noRows => .error (.sentinel .userNotFound)
  | .queryErr msg => .error (.wrapped "failed to get user by ID" (.storage msg))

/-- `PostgresUserRepository.GetByEmail` from
`internal/repository/user_postgres.go`, same shape as `GetByID`. -/
def pgGetByEmail (toDomain : UserDTO → Except GoError User) :
    QueryResult UserDTO → Except GoError User
  | .row d =>
    match toDomain d with
    | .ok u => .ok u
    | .error e => .error (.wrapped "failed to convert user DTO to domain" e)
  | .noRows => .error (.sentinel .userNotFound)
  | .queryErr msg => .error (.wrapped "failed to get user by email" (.storage msg))

/-- `PostgresUserRepository.Update` from
`internal/repository/user_postgres.go`, over the outcome of its `UPDATE`
statement: zero rows affected becomes `domain.ErrUserNotFound`; driver
errors are wrapped. -/
def pgUpdate : ExecResult → Option GoError
  | .execErr msg => some (.wrapped "failed to update user" (.storage msg))
  | .rowsAffectedErr msg => some (.wrapped "failed to get rows affected" (.storage msg))
  | .ok n => if n = 0 then some (.sentinel .userNotFound) else none

/-- `PostgresUserRepository.Delete` from
`internal/repository/user_postgres.go`, over the outcome of its `DELETE`
statement. -/
def pgDelete : ExecResult → Option GoError
  | .execErr msg => some (.wrapped "failed to delete user" (.storage msg))
  | .rowsAffectedErr msg => some (.wrapped "failed to get rows affected" (.storage msg))
  | .ok n => if n = 0 then some (.sentinel .userNotFound) else none

/-- `strconv.Atoi` on a 64-bit platform: optional sign, decimal digits,
`none` on empty input, a non-digit, or an out-of-range value (Go reports
`ErrSyntax`/`ErrRange`; the handler only checks `err == nil`). -/
def digitsVal (cs : List Char) : Option Nat :=
  if cs.isEmpty then none
  else cs.foldl
    (fun acc c => acc.bind fun n =>
      if c.isDigit then some (10 * n + (c.toNat - '0'.toNat)) else none)
    (some 0)

def goAtoi (s : String) : Option Int :=
  let p : Bool × List Char :=
    match s.data with
    | '-' :: rest => (true, rest)
    | '+' :: rest => (false, rest)
    | cs => (false, cs)
  match digitsVal p.2 with
  | none => none
  | some n =>
    if p.1 then (if (n : Int) ≤ 2 ^ 63 then some (-(n : Int)) else none)
    else (if (n : Int) < 2 ^ 63 then some (n : Int) else none)

/-- The `limit` computation of the handler's `ListUsers`
(`internal/handler`): default 10, replaced only by a successfully parsed
strictly positive value. -/
def parseLimit (limitStr : String) : Int :=
  if limitStr = "" then 10
  else match goAtoi limitStr with
    | some n => if n > 0 then n else 10
    | none => 10

/-- The `offset` computation of the handler's `ListUsers`: default 0,
replaced only by a successfully parsed non-negative value. -/
def parseOffset (offsetStr : String) : Int :=
  if offsetStr = "" then 0
  else match goAtoi offsetStr with
    | some n => if n ≥ 0 then n else 0
    | none => 0

/-- The handler's `ListUsers` over the two query parameters and the service
call it delegates to: the HTTP status and the body payload. -/
def listUsersHandler (limitStr offsetStr : String)
    (svc : Int → Int → Except GoError (List User)) :
    Nat × Option (List User) :=
  match svc (parseLimit limitStr) (parseOffset offsetStr) with
  | .ok us => (200, some us)
  | .error e => (getStatusCodeFromError e, none)

theorem containsError_wrapped (s : String) (e : GoError) (k : ErrKind) :
    containsError (.wrapped s e) k = containsError e k := rfl

/-- C8: the handler's error-to-status mapping is total (a function on all
error values), sends each sentinel kind to exactly the claimed status,
sends storage-specific errors to 500, and is insensitive to wrapping. -/
theorem c8_status_mapping :
    (∀ k : ErrKind, getStatusCodeFromError (.sentinel k) = claimedStatus k)
    ∧ (∀ msg : String, getStatusCodeFromError (.storage msg) = 500)
    ∧ (∀ (s : String) (e : GoError),
        getStatusCodeFromError (.wrapped s e) = getStatusCodeFromError e) := by
  refine ⟨fun k => ?_, fun msg => rfl, fun s e => ?_⟩
  · cases k <;> rfl
  · simp only [getStatusCodeFromError, containsError_wrapped]

example : isValidEmail "test@example.com" = true := by decide
example : isValidEmail "user@mail.example.com" = true := by decide
example : isValidEmail "user123@example123.com" = true := by decide
example : isValidEmail "user+test@example.com" = true := by decide
example : isValidEmail "userexample.com" = false := by decide
example : isValidEmail "user@" = false := by decide
example : isValidEmail "@example.com" = false := by decide
example : isValidEmail "user@example" = false := by decide
example : isValidEmail "" = false := by decide
example : isValidEmail "user @example.com" = false := by decide

theorem takeWhile_append_cons {l d : List Char} (hl : '@' ∉ l) :
    (l ++ '@' :: d).takeWhile (fun c => c != '@') = l := by
  induction l with
  | nil => simp [List.takeWhile]
  | cons a t ih =>
      simp only [List.mem_cons, not_or] at hl
      simp only [List.cons_append, List.takeWhile_cons]
      have ha : (a != '@') = true := by
        simpa [bne_iff_ne] using Ne.symm hl.1
      rw [ha, if_pos rfl, ih hl.2]

theorem dropWhile_append_cons {l d : List Char} (hl : '@' ∉ l) :
    (l ++ '@' :: d).dropWhile (fun c => c != '@') = '@' :: d := by
  induction l with
  | nil => simp [List.dropWhile]
  | cons a t ih =>
      simp only [List.mem_cons, not_or] at hl
      simp only [List.cons_append, List.dropWhile_cons]
      have ha : (a != '@') = true := by
        simpa [bne_iff_ne] using Ne.symm hl.1
      rw [ha, if_pos rfl, ih hl.2]

/-- C1: the email validator rejects every string that is empty, lacks an
`@`, lacks a domain (nothing after the `@`), lacks a TLD (no `.` after the
`@`), or contains whitespace; and it accepts every string of the shape
`local@domain` with a non-empty `@`-free local part, an `@`-free domain
containing a `.`, and no whitespace. -/
theorem c1_email_validation (s : String) :
    (s = "" ∨ '@' ∉ s.data ∨ ((s.data.dropWhile (fun c => c != '@')).drop 1 = [])
      ∨ '.' ∉ (s.data.dropWhile (fun c => c != '@')).drop 1
      ∨ s.data.any goIsSpace = true →
      isValidEmail s = false)
    ∧ (∀ l d : List Char, s.data = l ++ '@' :: d → l ≠ [] → '@' ∉ l → '@' ∉ d →
      '.' ∈ d → s.data.any goIsSpace = false → isValidEmail s = true) := by
  constructor
  · intro h
    rcases h with h | h | h | h | h
    · subst h; decide
    · have h0 : s.data.count '@' = 0 := List.count_eq_zero.mpr h
      simp [isValidEmail, h0]
    · simp [isValidEmail, h]
    · rw [List.drop_one] at h
      simp [isValidEmail, h]
    · simp [isValidEmail, h]
  · intro l d hs hl hla hda hdot hsp
    have hcount : (l ++ '@' :: d).count '@' = 1 := by
      rw [List.count_append, List.count_cons_self,
        List.count_eq_zero.mpr hla, List.count_eq_zero.mpr hda]
    have h2 : (l ++ '@' :: d).any goIsSpace = false := hs ▸ hsp
    have h3 : (l ++ '@' :: d).takeWhile (fun c => c != '@') = l :=
      takeWhile_append_cons hla
    have h4 : ((l ++ '@' :: d).dropWhile (fun c => c != '@')).drop 1 = d := by
      rw [dropWhile_append_cons hla]; rfl
    have hd : d ≠ [] := by
      rintro rfl; exact absurd hdot (List.not_mem_nil '.')
    simp only [isValidEmail, hs, h2, h3, h4]
    simp [hcount, hl, hd, hdot]

/-- Witness for C1 at concrete inputs: `user@example` (no `.` after the
`@`) is rejected and `test@example.com` is accepted. -/
theorem c1_email_validation_witness :
    isValidEmail "user@example" = false ∧ isValidEmail "test@example.com" = true := by
  constructor
  · exact (c1_email_validation "user@example").1 (by right; right; right; left; decide)
  · exact (c1_email_validation "test@example.com").2
      "test".data ("example.com").data (by decide) (by decide) (by decide)
      (by decide) (by decide) (by decide)

/-- C2: for every non-empty name and syntactically valid email, the
constructor succeeds and the returned user's `CreatedAt` equals its
`UpdatedAt` exactly. -/
theorem c2_construct_timestamps (email name : String) (now : Nat)
    (hemail : isValidEmail email = true) (hname : name ≠ "") :
    ∃ u : User, NewUser email name now = .ok u ∧ u.CreatedAt = u.UpdatedAt := by
  refine ⟨{ ID := "", Email := email, Name := name, Role := "user",
            IsEmailVerified := false, IsActive := true, OTP := none,
            OTPExpiresAt := none, CreatedAt := now, UpdatedAt := now },
          ?_, rfl⟩
  simp [NewUser, hemail, hname]

/-- Witness for C2 at `("test@example.com", "Test User")`. -/
theorem c2_construct_timestamps_witness :
    ∃ u : User, NewUser "test@example.com" "Test User" 5 = .ok u
      ∧ u.CreatedAt = u.UpdatedAt :=
  c2_construct_timestamps "test@example.com" "Test User" 5 (by decide)
    (by decide)

/-- C3: `UpdateEmail` on an invalid or empty email returns
`ErrInvalidUserEmail` and leaves the entity entirely unchanged, and
`UpdateName` on an empty name returns `ErrInvalidUserName` and leaves the
entity entirely unchanged — prior field values and `UpdatedAt` included. -/
theorem c3_invalid_update_no_partial_apply (u : User) (now : Nat) :
    (∀ newEmail : String, isValidEmail newEmail = false →
      u.UpdateEmail newEmail now = (some (.sentinel .invalidUserEmail), u))
    ∧ u.UpdateName "" now = (some (.sentinel .invalidUserName), u) := by
  constructor
  · intro newEmail h
    simp [User.UpdateEmail, h]
  · rfl

/-- Witness for C3 at a concrete entity, the invalid email `"invalid-email"`
and the empty name. -/
theorem c3_invalid_update_no_partial_apply_witness :
    (({ ID := "user-1", Email := "old@example.com", Name := "Test User",
        Role := "user", IsEmailVerified := false, IsActive := true,
        OTP := none, OTPExpiresAt := none, CreatedAt := 1,
        UpdatedAt := 1 } : User).UpdateEmail "invalid-email" 7
      = (some (.sentinel .invalidUserEmail),
         { ID := "user-1", Email := "old@example.com", Name := "Test User",
           Role := "user", IsEmailVerified := false, IsActive := true,
           OTP := none, OTPExpiresAt := none, CreatedAt := 1,
           UpdatedAt := 1 }))
    ∧ (({ ID := "user-1", Email := "old@example.com", Name := "Test User",
          Role := "user", IsEmailVerified := false, IsActive := true,
          OTP := none, OTPExpiresAt := none, CreatedAt := 1,
          UpdatedAt := 1 } : User).UpdateName "" 7
      = (some (.sentinel .invalidUserName),
         { ID := "user-1", Email := "old@example.com", Name := "Test User",
           Role := "user", IsEmailVerified := false, IsActive := true,
           OTP := none, OTPExpiresAt := none, CreatedAt := 1,
           UpdatedAt := 1 })) := by
  constructor
  · exact (c3_invalid_update_no_partial_apply _ 7).1 "invalid-email" (by decide)
  · exact (c3_invalid_update_no_partial_apply _ 7).2

/-- C4: when the repository already holds a user with the requested email,
`CreateUser` fails with `UserAlreadyExists`, never invokes the repository's
`Create` operation, and leaves the repository state unchanged. -/
theorem c4_create_duplicate_email (r : RepoState) (email name : String)
    (now : Nat) (newID : String) (u : User) (hu : u ∈ r.users)
    (he : u.Email = email) :
    CreateUser r email name now newID
      = (.error (.sentinel .userAlreadyExists), r, [.getByEmail])
    ∧ RepoCall.create ∉ [RepoCall.getByEmail] := by
  refine ⟨?_, by decide⟩
  have hsome : (r.users.find? (fun w => w.Email == email)).isSome := by
    rw [List.find?_isSome]
    exact ⟨u, hu, by simp [he]⟩
  rcases Option.isSome_iff_exists.mp hsome with ⟨v, hv⟩
  simp [CreateUser, RepoState.getByEmail, hv]

/-- Witness for C4: a repository holding `existing@example.com` rejects a
second creation with that email and is left unchanged. -/
theorem c4_create_duplicate_email_witness :
    CreateUser
        ⟨[{ ID := "existing-user", Email := "existing@example.com",
            Name := "Existing", Role := "user", IsEmailVerified := false,
            IsActive := true, OTP := none, OTPExpiresAt := none,
            CreatedAt := 1, UpdatedAt := 1 }]⟩
        "existing@example.com" "X" 2 "user-2"
      = (.error (.sentinel .userAlreadyExists),
         ⟨[{ ID := "existing-user", Email := "existing@example.com",
             Name := "Existing", Role := "user", IsEmailVerified := false,
             IsActive := true, OTP := none, OTPExpiresAt := none,
             CreatedAt := 1, UpdatedAt := 1 }]⟩, [.getByEmail])
    ∧ RepoCall.create ∉ [RepoCall.getByEmail] :=
  c4_create_duplicate_email _ "existing@example.com" "X" 2 "user-2"
    { ID := "existing-user", Email := "existing@example.com",
      Name := "Existing", Role := "user", IsEmailVerified := false,
      IsActive := true, OTP := none, OTPExpiresAt := none,
      CreatedAt := 1, UpdatedAt := 1 }
    (by simp) rfl

/-- C5: `GetUserByID` on the empty id fails with `InvalidUserID` and the
repository-call trace is empty — no round trip to `GetByID` at all. -/
theorem c5_get_empty_id (r : RepoState) :
    GetUserByID r "" = (.error (.sentinel .invalidUserID), []) := rfl

/-- C6: for an existing user, `UpdateUser` with an empty email and a
non-empty name succeeds and returns the loaded entity with only the name
and `UpdatedAt` replaced — the existing email (and every other field) is
preserved. -/
theorem c6_update_only_name (r : RepoState) (id name : String) (now : Nat)
    (u : User) (hid : r.getByID id = .ok u) (hname : name ≠ "") :
    ∃ r' : RepoState, UpdateUser r id "" name now
      = (.ok { u with Name := name, UpdatedAt := now }, r') := by
  have hfind : r.users.find? (fun v => v.ID == id) = some u := by
    unfold RepoState.getByID at hid
    rcases h : r.users.find? (fun v => v.ID == id) with _ | v
    · rw [h] at hid; cases hid
    · rw [h] at hid
      simp only [Except.ok.injEq] at hid
      subst hid
      exact h
  have hmem : u ∈ r.users := List.mem_of_find?_eq_some hfind
  have hany : r.users.any (fun v => v.ID == u.ID) = true :=
    List.any_eq_true.mpr ⟨u, hmem, by simp⟩
  refine ⟨{ users := r.users.map (fun v =>
      if v.ID == u.ID then { u with Name := name, UpdatedAt := now } else v) },
    ?_⟩
  simp only [UpdateUser, RepoState.getByID, hfind]
  simp [User.UpdateName, hname, RepoState.update, hany]

/-- Witness for C6: updating only the name of the stored `user-1` keeps its
email `old@example.com`. -/
theorem c6_update_only_name_witness :
    ∃ r' : RepoState,
      UpdateUser
          ⟨[{ ID := "user-1", Email := "old@example.com", Name := "Old Name",
              Role := "user", IsEmailVerified := false, IsActive := true,
              OTP := none, OTPExpiresAt := none, CreatedAt := 1,
              UpdatedAt := 1 }]⟩
          "user-1" "" "Updated Name" 9
        = (.ok { ID := "user-1", Email := "old@example.com",
                 Name := "Updated Name", Role := "user",
                 IsEmailVerified := false, IsActive := true, OTP := none,
                 OTPExpiresAt := none, CreatedAt := 1, UpdatedAt := 9 }, r') :=
  c6_update_only_name _ "user-1" "Updated Name" 9
    { ID := "user-1", Email := "old@example.com", Name := "Old Name",
      Role := "user", IsEmailVerified := false, IsActive := true,
      OTP := none, OTPExpiresAt := none, CreatedAt := 1, UpdatedAt := 1 }
    (by rfl) (by decide)

theorem newUser_ok_timestamps {email name : String} {now : Nat} {u : User}
    (h : NewUser email name now = .ok u) :
    u.CreatedAt = now ∧ u.UpdatedAt = now := by
  unfold NewUser at h
  split_ifs at h
  cases h
  exact ⟨rfl, rfl⟩

theorem getByID_ok_mem {r : RepoState} {id : String} {u : User}
    (h : r.getByID id = .ok u) : u ∈ r.users := by
  unfold RepoState.getByID at h
  split at h
  · rename_i v hf
    simp only [Except.ok.injEq] at h
    subst h
    exact List.mem_of_find?_eq_some hf
  · cases h

theorem updateEmail_bounds (u : User) (s : String) (now : Nat)
    (hinv : u.CreatedAt ≤ u.UpdatedAt) (hle : u.UpdatedAt ≤ now) :
    (u.UpdateEmail s now).2.CreatedAt ≤ (u.UpdateEmail s now).2.UpdatedAt
    ∧ u.UpdatedAt ≤ (u.UpdateEmail s now).2.UpdatedAt
    ∧ (u.UpdateEmail s now).2.UpdatedAt ≤ now := by
  unfold User.UpdateEmail
  split <;> simp <;> omega

theorem updateName_bounds (u : User) (s : String) (now : Nat)
    (hinv : u.CreatedAt ≤ u.UpdatedAt) (hle : u.UpdatedAt ≤ now) :
    (u.UpdateName s now).2.CreatedAt ≤ (u.UpdateName s now).2.UpdatedAt
    ∧ u.UpdatedAt ≤ (u.UpdateName s now).2.UpdatedAt
    ∧ (u.UpdateName s now).2.UpdatedAt ≤ now := by
  unfold User.UpdateName
  split <;> simp <;> omega

/-- C9: `UpdatedAt ≥ CreatedAt` for every reachable user entity: the
constructor stamps the two timestamps equal; `UpdateEmail` and `UpdateName`
at a clock reading `now` at or after the entity's `UpdatedAt` preserve the
invariant and only move `UpdatedAt` forward; and the service `CreateUser`
and `UpdateUser` return entities satisfying the invariant whenever the
repository rows satisfy it. -/
theorem c9_timestamp_invariant :
    (∀ (email name : String) (now : Nat) (u : User),
        NewUser email name now = .ok u → u.CreatedAt = u.UpdatedAt)
    ∧ (∀ (u : User) (s : String) (now : Nat), u.CreatedAt ≤ u.UpdatedAt →
        u.UpdatedAt ≤ now →
        (u.UpdateEmail s now).2.CreatedAt ≤ (u.UpdateEmail s now).2.UpdatedAt
        ∧ u.UpdatedAt ≤ (u.UpdateEmail s now).2.UpdatedAt)
    ∧ (∀ (u : User) (s : String) (now : Nat), u.CreatedAt ≤ u.UpdatedAt →
        u.UpdatedAt ≤ now →
        (u.UpdateName s now).2.CreatedAt ≤ (u.UpdateName s now).2.UpdatedAt
        ∧ u.UpdatedAt ≤ (u.UpdateName s now).2.UpdatedAt)
    ∧ (∀ (r : RepoState) (email name newID : String) (now : Nat)
        (u : User) (r' : RepoState) (tr : List RepoCall),
        CreateUser r email name now newID = (.ok u, r', tr) →
        u.CreatedAt ≤ u.UpdatedAt)
    ∧ (∀ (r : RepoState) (id email name : String) (now : Nat)
        (u' : User) (r' : RepoState),
        (∀ v ∈ r.users, v.CreatedAt ≤ v.UpdatedAt) →
        (∀ v ∈ r.users, v.UpdatedAt ≤ now) →
        UpdateUser r id email name now = (.ok u', r') →
        u'.CreatedAt ≤ u'.UpdatedAt) := by
  refine ⟨?_, ?_, ?_, ?_, ?_⟩
  · intro email name now u h
    have := newUser_ok_timestamps h
    omega
  · intro u s now h1 h2
    have := updateEmail_bounds u s now h1 h2
    exact ⟨this.1, this.2.1⟩
  · intro u s now h1 h2
    have := updateName_bounds u s now h1 h2
    exact ⟨this.1, this.2.1⟩
  · intro r email name newID now u r' tr h
    unfold CreateUser at h
    split at h
    · simp at h
    · split at h
      · simp at h
      · rename_i u0 heq
        simp only [RepoState.create, Prod.mk.injEq, Except.ok.injEq] at h
        have hts := newUser_ok_timestamps heq
        have hu : u = { u0 with ID := newID } := h.1.symm
        subst hu
        show u0.CreatedAt ≤ u0.UpdatedAt
        omega
  · intro r id email name now u' r' hinv hnow h
    unfold UpdateUser at h
    split at h
    · simp at h
    · rename_i u heq
      have hmem : u ∈ r.users := getByID_ok_mem heq
      have hu1 : u.CreatedAt ≤ u.UpdatedAt := hinv u hmem
      have hu2 : u.UpdatedAt ≤ now := hnow u hmem
      split at h
      · simp at h
      · rename_i u1 heq1
        have hb1 : u1.CreatedAt ≤ u1.UpdatedAt ∧ u1.UpdatedAt ≤ now := by
          by_cases he : email = ""
          · rw [if_pos he] at heq1
            injection heq1 with ho hu'
            subst hu'
            exact ⟨hu1, hu2⟩
          · rw [if_neg he] at heq1
            have hb := updateEmail_bounds u email now hu1 hu2
            rw [heq1] at hb
            exact ⟨hb.1, hb.2.2⟩
        split at h
        · simp at h
        · rename_i u2 heq2
          have hb2 : u2.CreatedAt ≤ u2.UpdatedAt := by
            by_cases hn : name = ""
            · rw [if_pos hn] at heq2
              injection heq2 with ho2 hu2'
              subst hu2'
              exact hb1.1
            · rw [if_neg hn] at heq2
              have hb := updateName_bounds u1 name now hb1.1 hb1.2
              rw [heq2] at hb
              exact hb.1
          split at h
          · simp at h
          · rename_i r2 heq3
            simp only [Prod.mk.injEq, Except.ok.injEq] at h
            rw [← h.1]
            exact hb2

/-- Witness for C9 at concrete inputs: each part of the invariant theorem
applied to the sample user (CreatedAt 1, UpdatedAt 2) and clock reading 5. -/
theorem c9_timestamp_invariant_witness :
    (({ ID := "", Email := "test@example.com", Name := "Test User",
        Role := "user", IsEmailVerified := false, IsActive := true,
        OTP := none, OTPExpiresAt := none, CreatedAt := 3,
        UpdatedAt := 3 } : User).CreatedAt
      = ({ ID := "", Email := "test@example.com", Name := "Test User",
           Role := "user", IsEmailVerified := false, IsActive := true,
           OTP := none, OTPExpiresAt := none, CreatedAt := 3,
           UpdatedAt := 3 } : User).UpdatedAt)
    ∧ ((sampleUser.UpdateEmail "new@example.com" 5).2.CreatedAt
        ≤ (sampleUser.UpdateEmail "new@example.com" 5).2.UpdatedAt
      ∧ sampleUser.UpdatedAt ≤ (sampleUser.UpdateEmail "new@example.com" 5).2.UpdatedAt)
    ∧ ((sampleUser.UpdateName "New Name" 5).2.CreatedAt
        ≤ (sampleUser.UpdateName "New Name" 5).2.UpdatedAt
      ∧ sampleUser.UpdatedAt ≤ (sampleUser.UpdateName "New Name" 5).2.UpdatedAt)
    ∧ (({ ID := "id-1", Email := "test@example.com", Name := "Test User",
          Role := "user", IsEmailVerified := false, IsActive := true,
          OTP := none, OTPExpiresAt := none, CreatedAt := 3,
          UpdatedAt := 3 } : User).CreatedAt
        ≤ ({ ID := "id-1", Email := "test@example.com", Name := "Test User",
             Role := "user", IsEmailVerified := false, IsActive := true,
             OTP := none, OTPExpiresAt := none, CreatedAt := 3,
             UpdatedAt := 3 } : User).UpdatedAt)
    ∧ ({ sampleUser with Name := "New Name", UpdatedAt := 5 } : User).CreatedAt
        ≤ ({ sampleUser with Name := "New Name", UpdatedAt := 5 } : User).UpdatedAt := by
  refine ⟨?_, ?_, ?_, ?_, ?_⟩
  · exact c9_timestamp_invariant.1 "test@example.com" "Test User" 3 _ rfl
  · exact c9_timestamp_invariant.2.1 sampleUser "new@example.com" 5
      (by decide) (by decide)
  · exact c9_timestamp_invariant.2.2.1 sampleUser "New Name" 5
      (by decide) (by decide)
  · exact c9_timestamp_invariant.2.2.2.1 ⟨[]⟩ "test@example.com" "Test User"
      "id-1" 3 _
      ⟨[{ ID := "id-1", Email := "test@example.com", Name := "Test User",
          Role := "user", IsEmailVerified := false, IsActive := true,
          OTP := none, OTPExpiresAt := none, CreatedAt := 3,
          UpdatedAt := 3 }]⟩
      [.getByEmail, .create] rfl
  · exact c9_timestamp_invariant.2.2.2.2 ⟨[sampleUser]⟩ "user-1" "" "New Name"
      5 _ ⟨[{ sampleUser with Name := "New Name", UpdatedAt := 5 }]⟩
      (by decide) (by decide) rfl

/-- C7: the repository translates every "not found" condition into the
domain `UserNotFound` sentinel at the boundary: `GetByID` and `GetByEmail`
map the no-row driver result to `UserNotFound`; `Update` and `Delete`
return `UserNotFound` exactly when zero rows are affected; and a
driver-level query failure surfaces as a wrapped storage error that the
handler's `errors.Is` check never reads as `UserNotFound`. -/
theorem c7_notfound_translation :
    (∀ toDomain : UserDTO → Except GoError User,
        pgGetByID toDomain .noRows = .error (.sentinel .userNotFound))
    ∧ (∀ toDomain : UserDTO → Except GoError User,
        pgGetByEmail toDomain .noRows = .error (.sentinel .userNotFound))
    ∧ (∀ n : Nat, pgUpdate (.ok n) = some (.sentinel .userNotFound) ↔ n = 0)
    ∧ (∀ n : Nat, pgDelete (.ok n) = some (.sentinel .userNotFound) ↔ n = 0)
    ∧ (∀ (toDomain : UserDTO → Except GoError User) (msg : String),
        ∃ e : GoError, pgGetByID toDomain (.queryErr msg) = .error e
          ∧ containsError e .userNotFound = false) := by
  refine ⟨fun _ => rfl, fun _ => rfl, fun n => ?_, fun n => ?_,
    fun toDomain msg => ⟨_, rfl, rfl⟩⟩
  · rcases Nat.eq_zero_or_pos n with h | h
    · simp [pgUpdate, h]
    · have h' : n ≠ 0 := by omega
      simp [pgUpdate, h']
  · rcases Nat.eq_zero_or_pos n with h | h
    · simp [pgDelete, h]
    · have h' : n ≠ 0 := by omega
      simp [pgDelete, h']

example : parseLimit "" = 10 := by decide
example : parseLimit "abc" = 10 := by decide
example : parseLimit "0" = 10 := by decide
example : parseLimit "-7" = 10 := by decide
example : parseLimit "25" = 25 := by decide
example : parseOffset "" = 0 := by decide
example : parseOffset "xyz" = 0 := by decide
example : parseOffset "-1" = 0 := by decide
example : parseOffset "0" = 0 := by decide
example : parseOffset "30" = 30 := by decide

/-- C10: the ListUsers handler never rejects pagination input: a `limit`
that is missing, unparsable, or not strictly positive is silently replaced
by 10; an `offset` that is missing, unparsable, or negative is silently
replaced by 0; and a 400 response can only originate from the service's own
error, never from the pagination parameters. -/
theorem c10_pagination_defaults :
    (∀ s : String,
      s = "" ∨ goAtoi s = none ∨ (∃ n : Int, goAtoi s = some n ∧ n ≤ 0) →
      parseLimit s = 10)
    ∧ (∀ s : String,
      s = "" ∨ goAtoi s = none ∨ (∃ n : Int, goAtoi s = some n ∧ n < 0) →
      parseOffset s = 0)
    ∧ (∀ (ls os : String) (svc : Int → Int → Except GoError (List User)),
      (listUsersHandler ls os svc).1 = 400 →
      ∃ e : GoError, svc (parseLimit ls) (parseOffset os) = .error e
        ∧ getStatusCodeFromError e = 400) := by
  refine ⟨?_, ?_, ?_⟩
  · intro s h
    rcases h with rfl | h | ⟨n, hn, hle⟩
    · rfl
    · by_cases hs : s = ""
      · simp [parseLimit, hs]
      · simp [parseLimit, hs, h]
    · by_cases hs : s = ""
      · simp [parseLimit, hs]
      · rw [parseLimit, if_neg hs, hn]
        simp only []
        rw [if_neg (by omega)]
  · intro s h
    rcases h with rfl | h | ⟨n, hn, hle⟩
    · rfl
    · by_cases hs : s = ""
      · simp [parseOffset, hs]
      · simp [parseOffset, hs, h]
    · by_cases hs : s = ""
      · simp [parseOffset, hs]
      · rw [parseOffset, if_neg hs, hn]
        simp only []
        rw [if_neg (by omega)]
  · intro ls os svc h
    unfold listUsersHandler at h
    rcases hs : svc (parseLimit ls) (parseOffset os) with e | us
    · rw [hs] at h
      exact ⟨e, rfl, by simpa using h⟩
    · rw [hs] at h
      simp at h

/-- Witness for C10 at concrete inputs: non-numeric, zero and negative
parameters fall back to the defaults; a service failing with
`ErrInvalidInput` is the only source of a 400. -/
theorem c10_pagination_defaults_witness :
    parseLimit "abc" = 10 ∧ parseLimit "0" = 10 ∧ parseOffset "-3" = 0
    ∧ ∃ e : GoError,
      (fun _ _ => (.error (.sentinel .invalidInput) : Except GoError (List User)))
          (parseLimit "5") (parseOffset "2") = .error e
        ∧ getStatusCodeFromError e = 400 := by
  refine ⟨?_, ?_, ?_, ?_⟩
  · exact c10_pagination_defaults.1 "abc" (Or.inr (Or.inl (by decide)))
  · exact c10_pagination_defaults.1 "0" (Or.inr (Or.inr ⟨0, by decide, by decide⟩))
  · exact c10_pagination_defaults.2.1 "-3" (Or.inr (Or.inr ⟨-3, by decide, by decide⟩))
  · exact c10_pagination_defaults.2.2 "5" "2"
      (fun _ _ => .error (.sentinel .invalidInput)) (by decide)

end SRBCS
